import Mathlib

/-!
Verification development for the avium order server: a shallow embedding of
the chunked-upload session manager, the G-code metadata extractor, the
signed-link verifier, the slicer invoker and the chunked slicing route,
together with theorems settling the specification claims about them.

Machine integers of the source are modelled as `Int`/`Nat`, buffers as lists
of bytes, the in-memory `Map` objects as insertion-ordered association
lists, and the filesystem, the external slicer process and the HMAC
primitive as explicit parameters.
-/

namespace Avium

/-! ## JavaScript array and string helpers -/

/-- JavaScript `Array.prototype.slice(start, end)` on a list, with the
relative-index and clamping semantics of ECMA-262. -/
def jsSlice {α : Type} (l : List α) (s e : Int) : List α :=
  let len : Int := l.length
  let s1 : Int := if s < 0 then max (len + s) 0 else min s len
  let e1 : Int := if e < 0 then max (len + e) 0 else min e len
  (l.drop s1.toNat).take (e1.toNat - s1.toNat)

/-- JavaScript `Array.prototype.indexOf` on a list of strings: the index of
the first occurrence, or `-1` when absent. -/
def jsIndexOf (l : List String) (x : String) : Int :=
  match l.findIdx? (fun y => y = x) with
  | some i => (i : Int)
  | none => -1

/-- Split a character list at newline characters, as
`String.prototype.split` with separator `"\n"` does. -/
def splitNl : List Char → List (List Char)
  | [] => [[]]
  | c :: cs =>
    if c = '\n' then [] :: splitNl cs
    else
      match splitNl cs with
      | h :: t => (c :: h) :: t
      | [] => [[c]]

/-- The list of lines of a text, per the `split('\n')` call of the source. -/
def fileLinesOf (text : String) : List String :=
  (splitNl text.data).map String.mk

/-- ASCII lowercasing of one character, the fragment of
`String.prototype.toLowerCase` relevant to the filetype tags and filename
extensions of this code base. -/
def asciiLower (c : Char) : Char :=
  if 'A' ≤ c ∧ c ≤ 'Z' then Char.ofNat (c.toNat + 32) else c

/-- ASCII lowercasing of a string. -/
def lowerStr (s : String) : String :=
  String.mk (s.data.map asciiLower)

/-- JavaScript truthiness of an optional string: `undefined` and the empty
string are falsy. -/
def jsTruthy : Option String → Bool
  | none => false
  | some s => s ≠ ""

/-- Rendering of a possibly-undefined environment variable inside a
template literal: `undefined` prints as the string `undefined`. -/
def jsTemplate : Option String → String
  | none => "undefined"
  | some s => s

/-! ## JavaScript Map objects as insertion-ordered association lists

`Map.prototype.set` updates an existing key in place and appends a new key
at the end, so iteration order is insertion order of first occurrence.
The representation below never stores a key twice. -/

/-- Lookup in an insertion-ordered map, as `Map.prototype.get`. -/
def jmFind {κ ν : Type} [DecidableEq κ] (m : List (κ × ν)) (k : κ) : Option ν :=
  match m with
  | [] => none
  | (k0, v) :: t => if k0 = k then some v else jmFind t k

/-- Membership test, as `Map.prototype.has`. -/
def jmHas {κ ν : Type} [DecidableEq κ] (m : List (κ × ν)) (k : κ) : Bool :=
  (jmFind m k).isSome

/-- Insertion or in-place update, as `Map.prototype.set`. -/
def jmSet {κ ν : Type} [DecidableEq κ] (m : List (κ × ν)) (k : κ) (v : ν) : List (κ × ν) :=
  match m with
  | [] => [(k, v)]
  | (k0, v0) :: t => if k0 = k then (k0, v) :: t else (k0, v0) :: jmSet t k v

/-- Deletion, as `Map.prototype.delete` (dropping the returned Boolean). -/
def jmDelete {κ ν : Type} [DecidableEq κ] (m : List (κ × ν)) (k : κ) : List (κ × ν) :=
  m.filter (fun p => ¬ p.1 = k)

/-- Number of entries, as `Map.prototype.size`; with unique keys this is the
count of distinct stored keys. -/
def jmSize {κ ν : Type} (m : List (κ × ν)) : Nat :=
  m.length

/-- The values in insertion order, as `Map.prototype.values`. -/
def jmValues {κ ν : Type} (m : List (κ × ν)) : List ν :=
  m.map Prod.snd

/-- The entries sorted by ascending key, as
`Array.from(m.entries()).sort((a, b) => a.key - b.key)` on integer keys. -/
def jmSortedByKey {ν : Type} (m : List (Int × ν)) : List (Int × ν) :=
  m.insertionSort (fun a b => a.1 ≤ b.1)

/-! ## Data model (src/src/slicing/models.ts, src/unnamed/part_001 types) -/

/-- A byte buffer. -/
abbrev Buf := List Nat

/-- The `SlicingSettings` interface of src/src/slicing/models.ts. -/
structure SlicingSettings where
  printer : Option String := none
  preset : Option String := none
  filament : Option String := none
  bedType : Option String := none
  plate : Option String := none
  multicolorOnePlate : Option Bool := none
  arrange : Option Bool := none
  orient : Option Bool := none
  exportType : Option String := none
  deriving DecidableEq, Repr

/-- The `UploadChunk` request body, with `data` already decoded from its
base64 transport encoding (`Buffer.from(chunk.data, 'base64')` is a
bijection between well-formed base64 text and byte buffers). -/
structure UploadChunk where
  id : String
  currentChunk : Int
  totalChunks : Int
  filetype : String
  data : Buf
  settings : Option SlicingSettings := none
  deriving DecidableEq, Repr

/-- One entry of the `sliceUploadSessions` table of src/src/slicing/route.ts. -/
structure Session where
  chunks : List (Int × Buf)
  totalChunks : Int
  filetype : String
  settings : Option SlicingSettings := none
  deriving DecidableEq, Repr

/-- One entry of the `uploadSessions` table of src/unnamed/part_002. -/
structure UpSession where
  chunks : List (Int × Buf)
  totalChunks : Int
  filetype : String
  deriving DecidableEq, Repr

/-! ## G-code metadata extractor (src/src/slicing/route.ts lines 56 to 108) -/

/-- Line-terminator characters, which `.` of a JavaScript regular expression
does not match. -/
def isRegexTerm (c : Char) : Bool :=
  c = '\n' ∨ c = '\r' ∨ c = '\u2028' ∨ c = '\u2029'

/-- True when no character of the list is a line terminator, so that a run
of `.` characters can cover it. -/
def noTerms (l : List Char) : Bool :=
  l.all (fun c => ¬ isRegexTerm c)

/-- The literal prefix of the time line pattern. -/
def pfxTime : List Char := "; model printing time: ".data

/-- The literal middle needle of the time line pattern. -/
def needleTime : List Char := "; total estimated time: ".data

/-- All decompositions `rest = A ++ needleTime ++ B` with `A` and `B`
nonempty, in ascending position of the needle. -/
def timeSplits (rest : List Char) : List (List Char × List Char) :=
  (List.range (rest.length + 1)).filterMap (fun i =>
    if 1 ≤ i ∧ needleTime.isPrefixOf (rest.drop i) ∧ i + needleTime.length < rest.length then
      some (rest.take i, rest.drop (i + needleTime.length))
    else none)

/-- Matching of one line against
`/^; model printing time: (.+); total estimated time: (.+)$/`: the anchored
pattern demands the literal prefix, a nonempty first group, the literal
needle and a nonempty second group, with no line terminator anywhere, and
the greedy first group selects the rightmost viable needle position. The
test regex of the `find` callback is the same pattern without captures, so
one function serves both. -/
def timeLineParse (line : String) : Option (String × String) :=
  let l := line.data
  if pfxTime.isPrefixOf l ∧ noTerms l then
    match (timeSplits (l.drop pfxTime.length)).getLast? with
    | some (a, b) => some (String.mk a, String.mk b)
    | none => none
  else none

/-- The extracted filament record of `extractSliceData`. -/
structure FilamentInfo where
  used_mm : Option String := none
  used_cm3 : Option String := none
  used_g : Option String := none
  cost : Option String := none
  deriving DecidableEq, Repr

/-- The alternation keys of the filament line pattern together with the
output field each maps to (the `keyMap` of the source). -/
def filamentKeys : List (String × String) :=
  [("used [mm]", "used_mm"), ("used [cm3]", "used_cm3"), ("used [g]", "used_g"), ("cost", "cost")]

/-- Matching of one line against
`/^; filament (used \[mm\]|used \[cm3\]|used \[g\]|cost) = (.+)$/`,
returning the mapped output field name and the captured value. The four
alternatives are mutually exclusive, so the first viable one is the match. -/
def filamentLineParse (line : String) : Option (String × String) :=
  (filamentKeys.filterMap (fun kf =>
    let p : List Char := ("; filament " ++ kf.1 ++ " = ").data
    if p.isPrefixOf line.data then
      let v := line.data.drop p.length
      if 1 ≤ v.length ∧ noTerms v then some (kf.2, String.mk v) else none
    else none)).head?

/-- Assignment `filament[mappedKey] = match[2]` for one recognized field. -/
def setFilament (f : FilamentInfo) (field v : String) : FilamentInfo :=
  if field = "used_mm" then { f with used_mm := some v }
  else if field = "used_cm3" then { f with used_cm3 := some v }
  else if field = "used_g" then { f with used_g := some v }
  else if field = "cost" then { f with cost := some v }
  else f

/-- Projection of a `FilamentInfo` field by its output name. -/
def getFilament (f : FilamentInfo) (field : String) : Option String :=
  if field = "used_mm" then f.used_mm
  else if field = "used_cm3" then f.used_cm3
  else if field = "used_g" then f.used_g
  else if field = "cost" then f.cost
  else none

/-- The header region of the file lines:
`fileLines.slice(indexOf HEADER_BLOCK_START, indexOf HEADER_BLOCK_END + 1)`. -/
def headerRegion (text : String) : List String :=
  let lines := fileLinesOf text
  jsSlice lines (jsIndexOf lines "; HEADER_BLOCK_START") (jsIndexOf lines "; HEADER_BLOCK_END" + 1)

/-- The filament-info region of the file lines:
`fileLines.slice(indexOf EXECUTABLE_BLOCK_END, fileLines.length - 1)`. Note
the upper bound excludes the final element of the split. -/
def filamentRegion (text : String) : List String :=
  let lines := fileLinesOf text
  jsSlice lines (jsIndexOf lines "; EXECUTABLE_BLOCK_END") ((lines.length : Int) - 1)

/-- The region the specification describes for filament scanning: from the
EXECUTABLE_BLOCK_END marker line through end of file. Modelled from the
spec wording for comparison with `filamentRegion`. -/
def specFilamentRegionToEOF (text : String) : List String :=
  let lines := fileLinesOf text
  jsSlice lines (jsIndexOf lines "; EXECUTABLE_BLOCK_END") (lines.length : Int)

/-- Result of `extractSliceData`: either an error object or the times and
filament records. -/
inductive ExtractRes where
  | error (msg : String)
  | ok (model total : String) (filament : FilamentInfo)
  deriving DecidableEq, Repr

/-- `extractSliceData` of src/src/slicing/route.ts lines 56 to 108, applied
to the already-read file text. The `find` over the header uses the
capture-free time pattern; a found line is re-matched with captures, whose
groups are nonempty by the pattern, and absence of a matching line yields
the parse failure of lines 73 to 75. The filament region is scanned
line-by-line with later matches overwriting earlier ones. -/
def extractSliceData (text : String) : ExtractRes :=
  let header := headerRegion text
  let filamentInfo := filamentRegion text
  match header.find? (fun l => (timeLineParse l).isSome) with
  | none => ExtractRes.error "Failed to parse slicing times from G-code"
  | some tl =>
    match timeLineParse tl with
    | none => ExtractRes.error "Failed to parse slicing times from G-code"
    | some (modelTime, totalTime) =>
      let filament := filamentInfo.foldl (fun acc l =>
        match filamentLineParse l with
        | some (k, v) => setFilament acc k v
        | none => acc) {}
      ExtractRes.ok modelTime totalTime filament

/-- The value of the last line of a region that matches the filament
pattern for a given output field, if any: the specification-level reading
of sequential overwrite. -/
def lastFilamentValue (field : String) (region : List String) : Option String :=
  (region.filterMap (fun l =>
    match filamentLineParse l with
    | some (f, v) => if f = field then some v else none
    | none => none)).getLast?

/-! ## Signed link issuer and verifier (src/unnamed/part_001)

The HMAC primitive `crypto.createHmac('sha256', secret).update(x).digest('hex')`
with a fixed configured secret is modelled as an opaque parameter
`h : String → String`. -/

/-- The signature component of the URL produced by `makeSignedUrl`
(src/unnamed/part_001 lines 95 to 101): the keyed hash of the raw filename. -/
def makeSignedUrlSig (h : String → String) (filename : String) : String :=
  h filename

/-- The full signed URL of `makeSignedUrl`. The `encodeURIComponent` call is
modelled as the identity, which it is on the unreserved characters of the
generated `id-model.ext` and `id-gcode-name` filenames. -/
def makeSignedUrlFull (h : String → String) (base filename : String) : String :=
  base ++ "/file/" ++ filename ++ "?s=" ++ h filename

/-- The signature verification of the file download route
(src/unnamed/part_001 lines 118 to 126): the expected signature is the keyed
hash of the filename; a supplied signature of a different length returns
invalid before any byte comparison, otherwise `crypto.timingSafeEqual`
compares the equal-length strings byte for byte. The first component is the
verdict, the second records whether the byte comparison ran. -/
def verifySig (h : String → String) (filename s : String) : Bool × Bool :=
  let expected := h filename
  if s.length ≠ expected.length then (false, false)
  else (decide (s = expected), true)

/-! ## Path resolution and the file download route -/

/-- Split a character list at a separator character, as
`String.prototype.split` with a one-character separator. -/
def splitOnChar (sep : Char) : List Char → List (List Char)
  | [] => [[]]
  | c :: cs =>
    if c = sep then [] :: splitOnChar sep cs
    else
      match splitOnChar sep cs with
      | h :: t => (c :: h) :: t
      | [] => [[c]]

/-- Normalisation of POSIX path segments: empty and dot segments vanish,
dot-dot pops the previous segment (and is ignored at the root), as
`path.resolve` normalises. -/
def normSegs : List String → List String → List String
  | acc, [] => acc.reverse
  | acc, seg :: rest =>
    if seg = "" ∨ seg = "." then normSegs acc rest
    else if seg = ".." then normSegs (acc.drop 1) rest
    else normSegs (seg :: acc) rest

/-- Joining path segments with slashes. -/
def joinSegs : List String → String
  | [] => ""
  | [s] => s
  | s :: t => s ++ "/" ++ joinSegs t

/-- JavaScript `String.prototype.startsWith`. -/
def startsWithStr (s p : String) : Bool :=
  p.data.isPrefixOf s.data

/-- POSIX `path.resolve(base, rel)` for an absolute `base`: an absolute
`rel` stands alone, otherwise it is appended to `base`, and the result is
segment-normalised. -/
def pathResolve (base rel : String) : String :=
  let full := if startsWithStr rel "/" then rel else base ++ "/" ++ rel
  "/" ++ joinSegs (normSegs [] ((splitOnChar '/' full.data).map String.mk))

/-- A resolved path escapes the serving root when it is neither the root
itself nor strictly below it. -/
def escapesRoot (root p : String) : Bool :=
  ¬ (p = root ∨ startsWithStr p (root ++ "/"))

/-- JavaScript `path.basename`: the last slash-separated segment. -/
def basenameOf (s : String) : String :=
  String.mk ((splitOnChar '/' s.data).getLastD [])

/-- Responses of the file download route. -/
inductive FileResp where
  | invalidLink
  | invalidSignature
  | invalidPath
  | notFound
  | sendFile (p : String)
  deriving DecidableEq, Repr

/-- The signed file retrieval handler of src/unnamed/part_001 lines 108 to
142: link validation, signature length check, constant-time comparison,
then the `startsWith` containment check on the resolved path, then
existence. -/
def fileHandler (h : String → String) (secretConfigured : Bool) (uploadDir filename s : String)
    (fsExists : String → Bool) : FileResp :=
  if ¬ secretConfigured ∨ filename = "" ∨ s = "" then FileResp.invalidLink
  else
    let expected := h filename
    if s.length ≠ expected.length then FileResp.invalidSignature
    else if s ≠ expected then FileResp.invalidSignature
    else
      let filePath := pathResolve uploadDir filename
      if ¬ startsWithStr filePath uploadDir then FileResp.invalidPath
      else if ¬ fsExists filePath then FileResp.notFound
      else FileResp.sendFile filePath

/-! ## Slicer invoker (src/src/generate/route.ts lines 33 to 212)

The filesystem is a predicate on paths, the external process an outcome
parameter, and every side effect is recorded as an event. -/

/-- Environment configuration read by `sliceModel`. -/
structure SliceEnv where
  uploadDir : String
  tmpdir : String
  dataPath : String
  processProfilesFolder : Option String
  orcaslicerPath : Option String
  mkdtempSuffix : String

/-- Side effects of the invoker, in program order. -/
inductive SEvent where
  | mkdir (p : String)
  | access (p : String)
  | write (p : String)
  | spawn (exe : String) (args : List String)
  | rmrf (p : String)
  deriving DecidableEq, Repr

/-- The `AppError` payload of src/src/middleware/error.ts. -/
structure AppErr where
  status : Nat
  message : String
  causeMessage : Option String := none
  deriving DecidableEq, Repr

/-- Tagged outcome of `sliceModel`: the success variant carries the output
file paths and the working directory, the failure variant an `AppError`. -/
inductive SliceRes where
  | ok (gcodes : List String) (workdir : String)
  | err (e : AppErr)
  deriving DecidableEq, Repr

/-- Outcome of the external `execFileSync` call: clean exit, or failure
(non-zero exit or timeout) with its diagnostic detail. -/
inductive ExecOutcome where
  | okExec
  | fail (detail : String)
  deriving DecidableEq, Repr

/-- Working directory chosen at lines 46 to 47: a quote-scoped name under
the temp directory, or a fresh `mkdtemp` directory. -/
def workdirFor (env : SliceEnv) (quoteId : Option String) : String :=
  match quoteId with
  | some q => env.tmpdir ++ "/slice-" ++ q
  | none => env.tmpdir ++ "/slice-" ++ env.mkdtempSuffix

/-- Input path chosen at lines 56 to 66: the uploads-directory model file
named by the quote id and the extension of `filename.split('.').pop()`, or
a file written under the working directory. -/
def inPathFor (env : SliceEnv) (filename : String) (quoteId : Option String) : String :=
  match quoteId with
  | some q =>
    env.uploadDir ++ "/" ++ q ++ "-model." ++ String.mk ((splitOnChar '.' filename.data).getLastD [])
  | none => workdirFor env quoteId ++ "/input/" ++ filename

/-- Path of an uploaded (data-directory) preset profile. -/
def uploadedPresetPathOf (env : SliceEnv) (s : SlicingSettings) : String :=
  env.dataPath ++ "/presets/" ++ s.preset.getD "" ++ ".json"

/-- Path of a shared default preset profile. -/
def defaultPresetPathOf (env : SliceEnv) (s : SlicingSettings) : String :=
  jsTemplate env.processProfilesFolder ++ "/" ++ s.preset.getD "" ++ ".json"

/-- Path of a printer profile (data directory only). -/
def printerPathOf (env : SliceEnv) (s : SlicingSettings) : String :=
  env.dataPath ++ "/printers/" ++ s.printer.getD "" ++ ".json"

/-- Path of a filament profile (data directory only). -/
def filamentPathOf (env : SliceEnv) (s : SlicingSettings) : String :=
  env.dataPath ++ "/filaments/" ++ s.filament.getD "" ++ ".json"

/-- True when every profile file the settings demand resolves, per the
lookup rules of lines 95 to 135: the preset from the data directory first
and the shared profiles folder second, the printer and filament from the
data directory only. -/
def profilesOk (env : SliceEnv) (fsExists : String → Bool) (s : SlicingSettings) : Bool :=
  (if jsTruthy s.printer ∧ jsTruthy s.preset then
    (fsExists (uploadedPresetPathOf env s) || fsExists (defaultPresetPathOf env s))
      && fsExists (printerPathOf env s)
  else true)
  && (if jsTruthy s.filament then fsExists (filamentPathOf env s) else true)

/-- The deterministic slicer argument list of lines 78 to 147, assembled in
one expression: export-format flag, plate selector with default, arrange
and orient flags, the combined printer and preset pair, the filament file,
the bed type, the multicolor flag, the compatibility flag, the output
directory and the input path. -/
def specSliceArgs (env : SliceEnv) (fsExists : String → Bool) (s : SlicingSettings)
    (outputDir inPath : String) : List String :=
  (if s.exportType = some "3mf" then ["--export-3mf", "result.3mf"] else [])
  ++ ["--slice", match s.plate with | none => "1" | some p => p]
  ++ (match s.arrange with | none => [] | some b => ["--arrange", if b then "1" else "0"])
  ++ (match s.orient with | none => [] | some b => ["--orient", if b then "1" else "0"])
  ++ (if jsTruthy s.printer ∧ jsTruthy s.preset then
      ["--load-settings", printerPathOf env s ++ ";"
        ++ (if fsExists (uploadedPresetPathOf env s) then uploadedPresetPathOf env s
            else defaultPresetPathOf env s)]
    else [])
  ++ (if jsTruthy s.filament then ["--load-filaments", filamentPathOf env s] else [])
  ++ (if jsTruthy s.bedType then ["--curr-bed-type", s.bedType.getD ""] else [])
  ++ (if s.multicolorOnePlate = some true then ["--allow-multicolor-oneplate"] else [])
  ++ ["--allow-newer-file", "--outputdir", outputDir, inPath]

/-- The execution tail of `sliceModel` (lines 149 to 211): the engine path
check, the spawn, failure cleanup, the output-directory scan by extension
and the empty-scan failure. -/
def sliceExecPhase (env : SliceEnv) (exec : ExecOutcome) (outputFiles : List String)
    (s : SlicingSettings) (workdir outputDir inPath : String) (args : List String)
    (evs : List SEvent) : SliceRes × List SEvent :=
  match env.orcaslicerPath with
  | none =>
    (SliceRes.err ⟨500, "Slicing is not configured properly on the server",
      some "ORCASLICER_PATH environment variable is not defined"⟩, evs)
  | some exe =>
    let evs := evs ++ [SEvent.spawn exe args]
    match exec with
    | ExecOutcome.fail d =>
      (SliceRes.err ⟨500, "Failed to slice the model", some ("OrcaSlicer error: " ++ d)⟩,
        evs ++ [SEvent.access inPath, SEvent.access outputDir, SEvent.rmrf workdir])
    | ExecOutcome.okExec =>
      let ext := if s.exportType = some "3mf" then ".3mf" else ".gcode"
      let resultFiles := (outputFiles.filter (fun f => ext.data.isSuffixOf (lowerStr f).data)).map
        (fun f => outputDir ++ "/" ++ f)
      if resultFiles.length = 0 then
        (SliceRes.err ⟨500, "No output files generated by slicer", none⟩,
          evs ++ [SEvent.rmrf workdir])
      else (SliceRes.ok resultFiles workdir, evs)

/-- Lines 137 to 147 of `sliceModel`: bed type, multicolor, compatibility
flag, output directory, input path, then the execution tail. -/
def sliceArgsRest (env : SliceEnv) (exec : ExecOutcome) (outputFiles : List String)
    (s : SlicingSettings) (workdir outputDir inPath : String) (args : List String)
    (evs : List SEvent) : SliceRes × List SEvent :=
  let args1 := args ++ (if jsTruthy s.bedType then ["--curr-bed-type", s.bedType.getD ""] else [])
  let args2 := args1 ++ (if s.multicolorOnePlate = some true then ["--allow-multicolor-oneplate"] else [])
  let args3 := args2 ++ ["--allow-newer-file", "--outputdir", outputDir, inPath]
  sliceExecPhase env exec outputFiles s workdir outputDir inPath args3 evs

/-- The filament lookup of lines 126 to 135 of `sliceModel`. -/
def sliceArgsTail (env : SliceEnv) (fsExists : String → Bool) (exec : ExecOutcome)
    (outputFiles : List String) (s : SlicingSettings) (workdir outputDir inPath : String)
    (args : List String) (evs : List SEvent) : SliceRes × List SEvent :=
  if jsTruthy s.filament then
    let filamentPath := filamentPathOf env s
    let evs1 := evs ++ [SEvent.access filamentPath]
    if fsExists filamentPath then
      sliceArgsRest env exec outputFiles s workdir outputDir inPath
        (args ++ ["--load-filaments", filamentPath]) evs1
    else
      (SliceRes.err ⟨400, "Filament not found",
        some ("Filament " ++ s.filament.getD "" ++ " not found")⟩, evs1)
  else
    sliceArgsRest env exec outputFiles s workdir outputDir inPath args evs

/-- The printer lookup of lines 114 to 123 of `sliceModel`. -/
def sliceArgsPrinter (env : SliceEnv) (fsExists : String → Bool) (exec : ExecOutcome)
    (outputFiles : List String) (s : SlicingSettings) (workdir outputDir inPath : String)
    (args : List String) (presetPath : String) (evs : List SEvent) : SliceRes × List SEvent :=
  let printerPath := printerPathOf env s
  let evs1 := evs ++ [SEvent.access printerPath]
  if fsExists printerPath then
    sliceArgsTail env fsExists exec outputFiles s workdir outputDir inPath
      (args ++ ["--load-settings", printerPath ++ ";" ++ presetPath]) evs1
  else
    (SliceRes.err ⟨400, "Printer not found",
      some ("Printer " ++ s.printer.getD "" ++ " not found")⟩, evs1)

/-- The argument construction and profile resolution of `sliceModel`
(lines 76 to 147), threading the recorded filesystem accesses and failing
with the NotFound errors of the source before any spawn. -/
def sliceArgsPhase (env : SliceEnv) (fsExists : String → Bool) (exec : ExecOutcome)
    (outputFiles : List String) (s : SlicingSettings) (workdir outputDir inPath : String)
    (evs : List SEvent) : SliceRes × List SEvent :=
  let args0 :=
    (if s.exportType = some "3mf" then ["--export-3mf", "result.3mf"] else [])
    ++ ["--slice", match s.plate with | none => "1" | some p => p]
    ++ (match s.arrange with | none => [] | some b => ["--arrange", if b then "1" else "0"])
    ++ (match s.orient with | none => [] | some b => ["--orient", if b then "1" else "0"])
  if jsTruthy s.printer ∧ jsTruthy s.preset then
    let uploadedPresetPath := uploadedPresetPathOf env s
    let defaultPresetPath := defaultPresetPathOf env s
    let evs1 := evs ++ [SEvent.access uploadedPresetPath]
    if fsExists uploadedPresetPath then
      sliceArgsPrinter env fsExists exec outputFiles s workdir outputDir inPath
        args0 uploadedPresetPath evs1
    else
      let evs2 := evs1 ++ [SEvent.access defaultPresetPath]
      if fsExists defaultPresetPath then
        sliceArgsPrinter env fsExists exec outputFiles s workdir outputDir inPath
          args0 defaultPresetPath evs2
      else
        (SliceRes.err ⟨400, "Preset not found",
          some ("Preset " ++ s.preset.getD "" ++ " not found for printer " ++ s.printer.getD "")⟩,
          evs2)
  else
    sliceArgsTail env fsExists exec outputFiles s workdir outputDir inPath args0 evs

/-- The first `sliceModel` of src/src/generate/route.ts (lines 33 to 212):
directory preparation (lines 44 to 74), argument construction with profile
resolution, the engine-path check, the spawn and the output scan. The
returned event list records every filesystem and process side effect in
program order. -/
def sliceModel (env : SliceEnv) (fsExists : String → Bool) (exec : ExecOutcome)
    (outputFiles : List String) (filename : String) (settings : SlicingSettings)
    (quoteId : Option String) : SliceRes × List SEvent :=
  let workdir := workdirFor env quoteId
  let outputDir := workdir ++ "/output"
  let inPath := inPathFor env filename quoteId
  match quoteId with
  | some _ =>
    let evs := [SEvent.mkdir workdir, SEvent.mkdir outputDir, SEvent.access inPath]
    if fsExists inPath then
      sliceArgsPhase env fsExists exec outputFiles settings workdir outputDir inPath
        (evs ++ [SEvent.access inPath])
    else
      (SliceRes.err ⟨500, "Failed to prepare slicing", some "ENOENT"⟩, evs)
  | none =>
    let evs := [SEvent.mkdir workdir, SEvent.mkdir outputDir,
      SEvent.mkdir (workdir ++ "/input"), SEvent.write inPath, SEvent.access inPath]
    sliceArgsPhase env fsExists exec outputFiles settings workdir outputDir inPath evs

/-! ## Chunked slicing route (src/src/slicing/route.ts lines 111 to 330)

The pricing collaborator, the quote PATCH and the price evaluation are
external calls modelled by outcome parameters; a thrown rejection anywhere
lands in the catch block of lines 283 to 321. The constant
`DELETE_AFTER_SLICE_FAILURE` of src/unnamed/part_001 line 65 is `false`, so
the policy-gated destructive cleanup of the catch block is inert. -/

/-- Outcome of the pricing-formula fetch of lines 222 to 237. -/
inductive PricingPhase where
  | throwsErr
  | notOk
  | okNoFormula
  | okFormula (formula : String)
  deriving DecidableEq, Repr

/-- Outcome of the quote PATCH of lines 249 to 268. -/
inductive PatchPhase where
  | throwsErr
  | notOk (statusText : String)
  | okPatch
  deriving DecidableEq, Repr

/-- External behaviour of one pipeline run: the filesystem, the slicer
process, the produced output text, which awaited calls reject, and the
collaborator outcomes. `priceValue` is the rendered result of the `mathjs`
evaluation of line 241, `none` when that evaluation throws. -/
structure PipeFx where
  secretConfigured : Bool
  fsExists : String → Bool
  exec : ExecOutcome
  outputFiles : List String
  gcodeText : String
  writeModelThrows : Bool := false
  statModelThrows : Bool := false
  copyThrows : Bool := false
  statGcodeThrows : Bool := false
  modelSize : Nat := 0
  gcodeSize : Nat := 0
  pricing : PricingPhase
  priceValue : Option String := none
  patch : PatchPhase

/-- Responses of the chunked slicing route. -/
inductive RouteResponse where
  | progress (received total : Int)
  | errorJson (status : Nat) (error : String) (details : Option String)
  | completed (id modelFilename gcodeFilename : String) (modelSize gcodeSize : Nat)
      (modelUrl gcodeUrl : String) (timeModel timeTotal : String)
      (filament : FilamentInfo) (price : String)
  deriving DecidableEq, Repr

/-- Observable result of one run of the assembly-and-slice block: the
response, whether the session record was deleted, whether the route itself
removed the working directory (line 215; the catch block of line 287 tests
the outer `workdir` binding, which line 185 shadows and which therefore is
never assigned), the assembled bytes, and the invoker events. -/
structure PipeOut where
  resp : RouteResponse
  sessionDeleted : Bool
  workdirRemovedByRoute : Bool
  assembled : Buf
  sliceEvents : List SEvent
  deriving DecidableEq, Repr

/-- The catch block of lines 283 to 321: the session record is deleted; the
outer `workdir` binding is still `undefined` because of the shadowing at
line 185, so no working-directory removal happens here; the destructive
cleanup is disabled by configuration; the runtime error detail string is
abstracted away. -/
def catchOut (assembled : Buf) (sevs : List SEvent) (wrr : Bool) : PipeOut :=
  { resp := RouteResponse.errorJson 500 "Failed to process and slice file" none,
    sessionDeleted := true,
    workdirRemovedByRoute := wrr,
    assembled := assembled,
    sliceEvents := sevs }

/-- The assembly-and-slice block of lines 146 to 322, run on the session
snapshot taken when the completing chunk arrived: concatenation of the
chunk buffers in ascending index order, model persistence and signed link,
the `sliceModel` call, the single-output check, metadata extraction, G-code
persistence and signed link, working-directory cleanup, pricing and quote
update, and the completion payload. The session deletion of line 219 is
commented out in the source, so the success path leaves the record in
place; every failure return before it deletes the record. -/
def routePipeline (env : SliceEnv) (h : String → String) (base : String) (fx : PipeFx)
    (session : Session) (chunk : UploadChunk) : PipeOut :=
  let completeFile := ((jmSortedByKey session.chunks).map Prod.snd).flatten
  let filename := "upload." ++ lowerStr chunk.filetype
  let modelFilename := chunk.id ++ "-model." ++ lowerStr chunk.filetype
  if fx.writeModelThrows then catchOut completeFile [] false
  else if fx.statModelThrows then catchOut completeFile [] false
  else if ¬ fx.secretConfigured then
    { resp := RouteResponse.errorJson 500 "Failed to generate download URL" none,
      sessionDeleted := true, workdirRemovedByRoute := false,
      assembled := completeFile, sliceEvents := [] }
  else
    let modelUrl := makeSignedUrlFull h base modelFilename
    let sevs := (sliceModel env fx.fsExists fx.exec fx.outputFiles filename
      (session.settings.getD {}) (some chunk.id)).2
    match (sliceModel env fx.fsExists fx.exec fx.outputFiles filename
      (session.settings.getD {}) (some chunk.id)).1 with
    | SliceRes.err e =>
      { resp := RouteResponse.errorJson e.status e.message e.causeMessage,
        sessionDeleted := true, workdirRemovedByRoute := false,
        assembled := completeFile, sliceEvents := sevs }
    | SliceRes.ok gcodes wd =>
      if gcodes.length ≠ 1 then
        { resp := RouteResponse.errorJson 500 "Expected exactly one output file from slicing" none,
          sessionDeleted := true, workdirRemovedByRoute := false,
          assembled := completeFile, sliceEvents := sevs }
      else
        match extractSliceData fx.gcodeText with
        | ExtractRes.error m =>
          { resp := RouteResponse.errorJson 500 m none,
            sessionDeleted := true, workdirRemovedByRoute := false,
            assembled := completeFile, sliceEvents := sevs }
        | ExtractRes.ok timeModel timeTotal fil =>
          let gcodeFilename := chunk.id ++ "-gcode-" ++ basenameOf (gcodes.headD "")
          if fx.copyThrows then catchOut completeFile sevs false
          else if fx.statGcodeThrows then catchOut completeFile sevs false
          else
            let gcodeUrl := makeSignedUrlFull h base gcodeFilename
            let wrr : Bool := wd ≠ ""
            match fx.pricing with
            | PricingPhase.throwsErr => catchOut completeFile sevs wrr
            | PricingPhase.notOk =>
              { resp := RouteResponse.errorJson 500
                  "An error occurred fetching pricing formula. Please try again." none,
                sessionDeleted := false, workdirRemovedByRoute := wrr,
                assembled := completeFile, sliceEvents := sevs }
            | PricingPhase.okNoFormula =>
              { resp := RouteResponse.errorJson 500
                  "An error occurred fetching pricing formula. Please try again." none,
                sessionDeleted := false, workdirRemovedByRoute := wrr,
                assembled := completeFile, sliceEvents := sevs }
            | PricingPhase.okFormula _ =>
              match fx.priceValue with
              | none => catchOut completeFile sevs wrr
              | some price =>
                match fx.patch with
                | PatchPhase.throwsErr => catchOut completeFile sevs wrr
                | PatchPhase.notOk st =>
                  { resp := RouteResponse.errorJson 500 ("Error updating quote: " ++ st) none,
                    sessionDeleted := false, workdirRemovedByRoute := wrr,
                    assembled := completeFile, sliceEvents := sevs }
                | PatchPhase.okPatch =>
                  { resp := RouteResponse.completed chunk.id modelFilename gcodeFilename
                      fx.modelSize fx.gcodeSize modelUrl gcodeUrl timeModel timeTotal fil price,
                    sessionDeleted := false, workdirRemovedByRoute := wrr,
                    assembled := completeFile, sliceEvents := sevs }

/-- Observable result of one POST to the chunked slicing route. -/
structure SubmitOut where
  table : List (String × Session)
  resp : RouteResponse
  triggered : Bool
  assembled : Option Buf := none
  deriving DecidableEq, Repr

/-- One POST to the chunked slicing route (lines 111 to 330): request
validation, filetype check, session creation on first sight of the id,
chunk storage by index, and the completion check
`session.chunks.size === session.totalChunks` that triggers the
assembly-and-slice block; otherwise the progress response of lines 323 to
329. The triggered block runs on the stored session and its deletions are
applied to the table. -/
def sliceSubmit (env : SliceEnv) (h : String → String) (base : String) (fx : PipeFx)
    (table : List (String × Session)) (chunk : UploadChunk) : SubmitOut :=
  if chunk.id = "" ∨ chunk.currentChunk < 0 ∨ chunk.totalChunks ≤ 0 then
    { table := table, resp := RouteResponse.errorJson 400 "Invalid chunk data" none,
      triggered := false }
  else if ¬ ((lowerStr chunk.filetype = "stl") ∨ (lowerStr chunk.filetype = "3mf")) then
    { table := table,
      resp := RouteResponse.errorJson 400
        "Invalid file type for slicing. Only STL, 3MF, and STEP files are allowed." none,
      triggered := false }
  else
    let table0 :=
      if jmHas table chunk.id then table
      else jmSet table chunk.id
        { chunks := [], totalChunks := chunk.totalChunks, filetype := chunk.filetype,
          settings := chunk.settings }
    let session := (jmFind table0 chunk.id).getD { chunks := [], totalChunks := 0, filetype := "" }
    let session1 := { session with chunks := jmSet session.chunks chunk.currentChunk chunk.data }
    let table1 := jmSet table0 chunk.id session1
    if (jmSize session1.chunks : Int) = session1.totalChunks then
      let out := routePipeline env h base fx session1 chunk
      { table := if out.sessionDeleted then jmDelete table1 chunk.id else table1,
        resp := out.resp, triggered := true, assembled := some out.assembled }
    else
      { table := table1, resp := RouteResponse.progress (chunk.currentChunk + 1) chunk.totalChunks,
        triggered := false }

/-- Accumulated result of a sequence of POSTs to the slicing route. -/
structure RunOut where
  table : List (String × Session)
  triggers : Nat
  resps : List RouteResponse
  assembledFiles : List Buf
  deriving DecidableEq, Repr

/-- Sequential execution of a list of chunk submissions against the slicing
route, counting how many submissions triggered the assembly block. -/
def runSliceSubmits (env : SliceEnv) (h : String → String) (base : String) (fx : PipeFx)
    (table : List (String × Session)) (chunks : List UploadChunk) : RunOut :=
  chunks.foldl (fun acc c =>
    let o := sliceSubmit env h base fx acc.table c
    { table := o.table,
      triggers := acc.triggers + (if o.triggered then 1 else 0),
      resps := acc.resps ++ [o.resp],
      assembledFiles := acc.assembledFiles ++ (match o.assembled with | some b => [b] | none => []) })
    { table := table, triggers := 0, resps := [], assembledFiles := [] }

/-! ## Chunked upload route (src/unnamed/part_002 lines 74 to 141) -/

/-- Responses of the plain chunked upload route. -/
inductive UpResp where
  | progress (received total : Int)
  | badRequest (error : String)
  | assembleFailed
  | done (id filename : String) (size : Nat) (filetype : String)
  deriving DecidableEq, Repr

/-- Observable result of one POST to the upload route. -/
structure UpOut where
  table : List (String × UpSession)
  resp : UpResp
  assembled : Option Buf := none
  deriving DecidableEq, Repr

/-- The filename extension sanitiser of line 113:
`filetype.toLowerCase().replace(/[^a-z0-9]/g, '') || 'bin'`. -/
def sanitizeExt (s : String) : String :=
  let t := (lowerStr s).data.filter (fun c => ('a' ≤ c ∧ c ≤ 'z') ∨ ('0' ≤ c ∧ c ≤ '9'))
  if t.isEmpty then "bin" else String.mk t

/-- One POST to the chunked upload route of src/unnamed/part_002: request
validation (no filetype restriction here), session creation, chunk storage,
and on completion the assembly
`Buffer.concat([...session.chunks.values()])` of line 110, which
concatenates the stored buffers in Map insertion order, that is in arrival
order of first submission per index; the sort at lines 103 to 105 feeds
only the log line. `now` stands for `Date.now()`. -/
def uploadSubmit (now : Nat) (writeThrows : Bool) (table : List (String × UpSession))
    (chunk : UploadChunk) : UpOut :=
  if chunk.id = "" ∨ chunk.currentChunk < 0 ∨ chunk.totalChunks ≤ 0 then
    { table := table, resp := UpResp.badRequest "Invalid chunk data" }
  else
    let table0 :=
      if jmHas table chunk.id then table
      else jmSet table chunk.id
        { chunks := [], totalChunks := chunk.totalChunks, filetype := chunk.filetype }
    let session := (jmFind table0 chunk.id).getD { chunks := [], totalChunks := 0, filetype := "" }
    let session1 := { session with chunks := jmSet session.chunks chunk.currentChunk chunk.data }
    let table1 := jmSet table0 chunk.id session1
    if (jmSize session1.chunks : Int) = session1.totalChunks then
      let completeFile := (jmValues session1.chunks).flatten
      if writeThrows then
        { table := jmDelete table1 chunk.id, resp := UpResp.assembleFailed }
      else
        { table := jmDelete table1 chunk.id,
          resp := UpResp.done chunk.id
            (toString now ++ "-" ++ chunk.id ++ "." ++ sanitizeExt chunk.filetype)
            completeFile.length session1.filetype,
          assembled := some completeFile }
    else
      { table := table1, resp := UpResp.progress (chunk.currentChunk + 1) chunk.totalChunks }

/-- Sequential execution of submissions against the upload route, keeping
the assembled outputs. -/
def runUploadSubmits (now : Nat) (table : List (String × UpSession))
    (chunks : List UploadChunk) : List (String × UpSession) × List (Option Buf) :=
  chunks.foldl (fun acc c =>
    let o := uploadSubmit now false acc.1 c
    (o.table, acc.2 ++ [o.assembled]))
    (table, [])

/-- True when the event list contains a process spawn. -/
def hasSpawn (evs : List SEvent) : Bool :=
  evs.any (fun e => match e with | SEvent.spawn _ _ => true | _ => false)

/-! ## Concrete fixtures used by witness and counterexample theorems -/

/-- A fully configured environment. -/
def envA : SliceEnv :=
  { uploadDir := "/up", tmpdir := "/tmp", dataPath := "/data",
    processProfilesFolder := some "/profiles", orcaslicerPath := some "/bin/orca",
    mkdtempSuffix := "X" }

/-- The same environment with the engine path unset. -/
def envNoOrca : SliceEnv := { envA with orcaslicerPath := none }

/-- A concrete stand-in for the keyed hash. -/
def hA : String → String := fun s => s ++ "#sig"

/-- A well-formed slicer output text ending in a newline. -/
def gtextA : String :=
  "; HEADER_BLOCK_START\n; model printing time: 1m; total estimated time: 2m\n; HEADER_BLOCK_END\n; EXECUTABLE_BLOCK_END\n"

/-- A slicer output text whose filament line is the final, unterminated line. -/
def gtextLastLine : String :=
  "; HEADER_BLOCK_START\n; model printing time: 1m; total estimated time: 2m\n; HEADER_BLOCK_END\n; EXECUTABLE_BLOCK_END\n; filament cost = 5.00"

/-- A slicer output text with duplicate filament lines and a trailing newline. -/
def gtextFull : String :=
  "; HEADER_BLOCK_START\n; model printing time: 1m; total estimated time: 2m\n; HEADER_BLOCK_END\n; EXECUTABLE_BLOCK_END\n; filament used [mm] = 10.00\n; filament used [cm3] = 2.50\n; filament used [g] = 3.10\n; filament cost = 1.00\n; filament cost = 2.00\n"

/-- External behaviour in which every collaborator succeeds. -/
def fxA : PipeFx :=
  { secretConfigured := true, fsExists := fun _ => true, exec := ExecOutcome.okExec,
    outputFiles := ["m.gcode"], gcodeText := gtextA,
    pricing := PricingPhase.okFormula "w", priceValue := some "1.00",
    patch := PatchPhase.okPatch }

/-- The all-success behaviour, except that the slicer leaves two output
files in the output directory. -/
def fxTwoOutputs : PipeFx := { fxA with outputFiles := ["m.gcode", "n.gcode"] }

/-- Chunk 0 of a two-chunk session. -/
def cA0 : UploadChunk := { id := "a", currentChunk := 0, totalChunks := 2, filetype := "stl", data := [0] }

/-- Chunk 1 of a two-chunk session. -/
def cA1 : UploadChunk := { id := "a", currentChunk := 1, totalChunks := 2, filetype := "stl", data := [1] }

/-- A chunk with index 2 of a five-chunk session. -/
def cMid : UploadChunk := { id := "b", currentChunk := 2, totalChunks := 5, filetype := "stl", data := [9] }

/-- A complete two-chunk session for id `a`. -/
def sessA : Session := { chunks := [(0, [0]), (1, [1])], totalChunks := 2, filetype := "stl" }

/-- A filesystem in which the model file exists, the preset `Q` exists only
in the shared default profiles folder, and the printer profile `P` exists in
the shared default folder (under either plausible naming convention) but
not in the data directory. -/
def fsxShared : String → Bool := fun p =>
  p = "/up/q-model.stl" ∨ p = "/profiles/Q.json" ∨ p = "/profiles/P.json"
    ∨ p = "/profiles/printers/P.json"

/-- Settings exercising every argument-building branch. -/
def stFull : SlicingSettings :=
  { printer := some "P", preset := some "Q", filament := some "F", bedType := some "textured",
    plate := some "2", multicolorOnePlate := some true, arrange := some true,
    orient := some false, exportType := some "3mf" }

/-! ## Helper lemmas -/

theorem getLast?_cons_eq {α : Type} (x : α) (l : List α) :
    (x :: l).getLast? = match l.getLast? with | some y => some y | none => some x := by
  cases l with
  | nil => simp
  | cons y t =>
    rw [List.getLast?_cons_cons]
    have hs : ((y :: t).getLast?).isSome = true := by
      simp [List.getLast?_isSome]
    obtain ⟨z, hz⟩ := Option.isSome_iff_exists.mp hs
    simp [hz]

theorem jmHas_of_find {κ ν : Type} [DecidableEq κ] (m : List (κ × ν)) (k : κ) (s : ν)
    (hf : jmFind m k = some s) : jmHas m k = true := by
  simp [jmHas, hf]

theorem jmSize_jmSet_of_has {κ ν : Type} [DecidableEq κ] (m : List (κ × ν)) (k : κ) (v : ν)
    (hk : jmHas m k = true) : jmSize (jmSet m k v) = jmSize m := by
  induction m with
  | nil => simp [jmHas, jmFind] at hk
  | cons p t ih =>
    obtain ⟨k0, v0⟩ := p
    by_cases h : k0 = k
    · simp [jmSet, h, jmSize]
    · have ht : jmHas t k = true := by
        simpa [jmHas, jmFind, h] using hk
      simp [jmSet, h, jmSize] at ih ⊢
      exact ih ht

theorem routePipeline_resp_ne_progress (env : SliceEnv) (h : String → String) (base : String)
    (fx : PipeFx) (s : Session) (c : UploadChunk) (r t : Int) :
    ¬ (routePipeline env h base fx s c).resp = RouteResponse.progress r t := by
  intro hresp
  unfold routePipeline at hresp
  repeat' (first | split at hresp | dsimp only at hresp)
  all_goals simp [catchOut] at hresp

theorem append_ne_of_not_prefix (a b c : String) (hnp : a.data.isPrefixOf c.data = false) :
    a ++ b ≠ c := by
  intro he
  have hd : a.data ++ b.data = c.data := by
    have h2 := congrArg String.data he
    simpa [String.data_append] using h2
  have hp : a.data.isPrefixOf c.data = true := by
    rw [← hd]
    exact List.isPrefixOf_iff_prefix.mpr (List.prefix_append _ _)
  rw [hp] at hnp
  exact absurd hnp (by simp)

theorem hasSpawn_argsPhase_none (env : SliceEnv) (fsx : String → Bool) (ex : ExecOutcome)
    (outs : List String) (s : SlicingSettings) (wd od ip : String) (evs : List SEvent)
    (hnone : env.orcaslicerPath = none) :
    hasSpawn (sliceArgsPhase env fsx ex outs s wd od ip evs).2 = hasSpawn evs := by
  unfold sliceArgsPhase sliceArgsPrinter sliceArgsTail sliceArgsRest sliceExecPhase
  simp only [hnone]
  repeat' (first | split | dsimp only)
  all_goals simp [hasSpawn, List.any_append]

theorem sliceArgsPhase_none_result (env : SliceEnv) (fsx : String → Bool) (ex : ExecOutcome)
    (outs : List String) (s : SlicingSettings) (wd od ip : String) (evs : List SEvent)
    (hnone : env.orcaslicerPath = none) (hprof : profilesOk env fsx s = true) :
    (sliceArgsPhase env fsx ex outs s wd od ip evs).1
        = SliceRes.err ⟨500, "Slicing is not configured properly on the server",
            some "ORCASLICER_PATH environment variable is not defined"⟩
    ∧ ∀ x ∈ evs, x ∈ (sliceArgsPhase env fsx ex outs s wd od ip evs).2 := by
  unfold profilesOk at hprof
  unfold sliceArgsPhase sliceArgsPrinter sliceArgsTail sliceArgsRest sliceExecPhase
  simp only [hnone]
  repeat' (first | split | dsimp only)
  all_goals simp_all [List.mem_append]

/-! ## Claim C7: signature round trip, mutation rejection, length short-circuit -/

/-- Claim C7: with a configured secret, `verify(filename, sign(filename))`
succeeds for every filename; verification fails for any changed signature
(in particular any single-bit mutation) and for any filename whose keyed
hash differs from the original one (which a single-bit mutation yields for
a collision-free HMAC, here a hypothesis on the abstract hash); and a
supplied signature whose length differs from the expected one is rejected
without the byte comparison ever running. -/
theorem c7_sign_verify (h : String → String) (f fAlt s : String) :
    (verifySig h f (makeSignedUrlSig h f)).1 = true
    ∧ (s ≠ makeSignedUrlSig h f → (verifySig h f s).1 = false)
    ∧ (h fAlt ≠ h f → (verifySig h fAlt (makeSignedUrlSig h f)).1 = false)
    ∧ (s.length ≠ (h f).length → verifySig h f s = (false, false)) := by
  refine ⟨?_, ?_, ?_, ?_⟩
  · simp [verifySig, makeSignedUrlSig]
  · intro hne
    simp [makeSignedUrlSig] at hne
    unfold verifySig
    by_cases hl : s.length = (h f).length
    · simp [hl, hne]
    · simp [hl]
  · intro hne
    have hne2 : h f ≠ h fAlt := fun e => hne e.symm
    unfold verifySig makeSignedUrlSig
    by_cases hl : (h f).length = (h fAlt).length
    · simp [hl, hne2]
    · simp [hl]
  · intro hl
    simp [verifySig, hl]

/-- Claim C7 witness: the round trip, a mutated signature, a mutated
filename and a short signature at concrete inputs. -/
theorem c7_sign_verify_witness :
    (verifySig hA "a.gcode" (makeSignedUrlSig hA "a.gcode")).1 = true
    ∧ (verifySig hA "a.gcode" "a.gcodeXsig").1 = false
    ∧ (verifySig hA "b.gcode" (makeSignedUrlSig hA "a.gcode")).1 = false
    ∧ verifySig hA "a.gcode" "xy" = (false, false) := by
  refine ⟨(c7_sign_verify hA "a.gcode" "b.gcode" "a.gcodeXsig").1,
    (c7_sign_verify hA "a.gcode" "b.gcode" "a.gcodeXsig").2.1 (by decide),
    (c7_sign_verify hA "a.gcode" "b.gcode" "x").2.2.1 (by decide),
    (c7_sign_verify hA "a.gcode" "b.gcode" "xy").2.2.2 (by decide)⟩

/-! ## Claim C6: path containment on signed file retrieval -/

/-- Claim C6 counterexample: the filename `../uploads-evil/f`, carrying a
valid signature, resolves to `/srv/uploads-evil/f`, which escapes the root
`/srv/uploads`, yet the handler serves the file: the `startsWith` test
accepts every sibling directory whose name extends the root string. -/
theorem c6_counterexample :
    fileHandler hA true "/srv/uploads" "../uploads-evil/f" (hA "../uploads-evil/f")
        (fun _ => true) = FileResp.sendFile "/srv/uploads-evil/f"
    ∧ escapesRoot "/srv/uploads" "/srv/uploads-evil/f" = true := by
  exact ⟨by decide, by decide⟩

/-- Claim C6 amended: a file is only ever served at the resolved path of
the requested filename, and only when that resolved path has the
configured serving root as a string prefix; resolutions escaping the root
into a sibling directory whose name extends the root string pass this
check, so rejection is guaranteed only for resolved paths failing the
string-prefix test. -/
theorem c6_containment_prefix_only (h : String → String) (sc : Bool) (root fn s p : String)
    (fsx : String → Bool) :
    fileHandler h sc root fn s fsx = FileResp.sendFile p →
    startsWithStr p root = true ∧ p = pathResolve root fn := by
  intro hh
  unfold fileHandler at hh
  repeat' (first | split at hh | dsimp only at hh)
  all_goals simp_all

/-- Claim C6 witness: a well-formed in-root request is served at its
resolved path, which the containment check accepted. -/
theorem c6_containment_prefix_only_witness :
    startsWithStr (pathResolve "/srv/uploads" "f.gcode") "/srv/uploads" = true
    ∧ pathResolve "/srv/uploads" "f.gcode" = "/srv/uploads/f.gcode" := by
  have t := c6_containment_prefix_only hA true "/srv/uploads" "f.gcode" (hA "f.gcode")
    "/srv/uploads/f.gcode" (fun _ => true) (by decide)
  exact ⟨t.1, by decide⟩

/-! ## Claim C10: progress responses report the submitted index plus one -/

/-- Claim C10: every progress response of the chunked slicing route and of
the chunked upload route carries `received = currentChunk + 1` and
`total = totalChunks` of the submitted chunk, independent of how many
distinct chunks the session actually stores. -/
theorem c10_progress_received :
    (∀ (env : SliceEnv) (h : String → String) (base : String) (fx : PipeFx)
      (table : List (String × Session)) (c : UploadChunk) (r t : Int),
      (sliceSubmit env h base fx table c).resp = RouteResponse.progress r t →
        r = c.currentChunk + 1 ∧ t = c.totalChunks)
    ∧ (∀ (now : Nat) (wt : Bool) (table : List (String × UpSession)) (c : UploadChunk) (r t : Int),
      (uploadSubmit now wt table c).resp = UpResp.progress r t →
        r = c.currentChunk + 1 ∧ t = c.totalChunks) := by
  constructor
  · intro env h base fx table c r t hresp
    unfold sliceSubmit at hresp
    repeat' (first | split at hresp | dsimp only at hresp)
    all_goals
      first
      | (exact absurd (by simpa using hresp)
          (routePipeline_resp_ne_progress _ _ _ _ _ _ r t))
      | (simp at hresp; exact ⟨hresp.1.symm, hresp.2.symm⟩)
      | simp_all
  · intro now wt table c r t hresp
    unfold uploadSubmit at hresp
    repeat' (first | split at hresp | dsimp only at hresp)
    all_goals
      first
      | (simp at hresp; exact ⟨hresp.1.symm, hresp.2.symm⟩)
      | simp_all

/-- Claim C10 witness: submitting only chunk index 2 of a five-chunk
session as its first chunk yields `received = 3` while exactly one chunk is
stored. -/
theorem c10_progress_received_witness :
    (sliceSubmit envA hA "http://b" fxA [] cMid).resp = RouteResponse.progress 3 5
    ∧ (3 : Int) = cMid.currentChunk + 1
    ∧ jmSize ((jmFind (sliceSubmit envA hA "http://b" fxA [] cMid).table "b").getD
        { chunks := [], totalChunks := 0, filetype := "" }).chunks = 1 := by
  have hp : (sliceSubmit envA hA "http://b" fxA [] cMid).resp = RouteResponse.progress 3 5 := by
    decide
  have ht := (c10_progress_received.1 envA hA "http://b" fxA [] cMid 3 5 hp).1
  exact ⟨hp, ht.symm, by decide⟩

/-! ## Claim C2: session fate on the Done state -/

/-- Claim C2 amended: when the chunked slice pipeline returns the full
completion payload, the session record has not been deleted; the removal
on success is disabled in the source (line 219 is commented out), so the
record outlives the Done state. -/
theorem c2_success_keeps_session (env : SliceEnv) (h : String → String) (base : String)
    (fx : PipeFx) (s : Session) (c : UploadChunk) :
    ∀ i mf gf ms gs mu gu tm tt fil pr,
      (routePipeline env h base fx s c).resp
          = RouteResponse.completed i mf gf ms gs mu gu tm tt fil pr →
      (routePipeline env h base fx s c).sessionDeleted = false := by
  intro i mf gf ms gs mu gu tm tt fil pr hresp
  unfold routePipeline at hresp ⊢
  repeat' (first | split at hresp | dsimp only at hresp ⊢)
  all_goals simp_all [catchOut]

/-- Claim C2 counterexample: a fully successful two-chunk run ends with the
completion payload while the session record for the id is still present in
the session table. -/
theorem c2_counterexample :
    (runSliceSubmits envA hA "http://b" fxA [] [cA0, cA1]).resps.getLast?
        = some (RouteResponse.completed "a" "a-model.stl" "a-gcode-m.gcode" 0 0
          "http://b/file/a-model.stl?s=a-model.stl#sig"
          "http://b/file/a-gcode-m.gcode?s=a-gcode-m.gcode#sig" "1m" "2m" {} "1.00")
    ∧ jmHas (runSliceSubmits envA hA "http://b" fxA [] [cA0, cA1]).table "a" = true := by
  exact ⟨by decide, by decide⟩

/-- Claim C2 witness: the amended statement applied to the concrete
successful run. -/
theorem c2_success_keeps_session_witness :
    (routePipeline envA hA "http://b" fxA sessA cA1).sessionDeleted = false := by
  exact c2_success_keeps_session envA hA "http://b" fxA sessA cA1 "a" "a-model.stl"
    "a-gcode-m.gcode" 0 0 "http://b/file/a-model.stl?s=a-model.stl#sig"
    "http://b/file/a-gcode-m.gcode?s=a-gcode-m.gcode#sig" "1m" "2m" {} "1.00" (by decide)

/-! ## Claim C1: reassembly order -/

/-- Claim C1: the chunked slice route assembles the stored buffers in
ascending index order, so the two submission orders of a two-chunk session
yield the same bytes there; the chunked upload route of part_002
concatenates the stored buffers in Map insertion order, so submitting
chunk 1 before chunk 0 yields the bytes swapped relative to ascending
index order. Evaluated at the failing input. -/
theorem c1_upload_arrival_order_eval :
    (runUploadSubmits 7 [] [cA1, cA0]).2 = [none, some [1, 0]]
    ∧ (runUploadSubmits 7 [] [cA0, cA1]).2 = [none, some [0, 1]]
    ∧ (runSliceSubmits envA hA "http://b" fxA [] [cA1, cA0]).assembledFiles = [[0, 1]]
    ∧ (runSliceSubmits envA hA "http://b" fxA [] [cA0, cA1]).assembledFiles = [[0, 1]]
    ∧ ([1, 0] : Buf) ≠ cA0.data ++ cA1.data := by
  refine ⟨by decide, by decide, by decide, by decide, by decide⟩

/-! ## Claim C5: unconfigured engine path -/

/-- Claim C5 counterexample: with the engine path unset, `sliceModel`
returns the Misconfigured error and spawns nothing, but the output
directory has already been created by the time of the check: the event
list contains its mkdir, contradicting the before-any-output-directory
clause of the claim. -/
theorem c5_counterexample :
    (sliceModel envNoOrca (fun _ => true) ExecOutcome.okExec [] "upload.stl" {} (some "q")).1
        = SliceRes.err ⟨500, "Slicing is not configured properly on the server",
            some "ORCASLICER_PATH environment variable is not defined"⟩
    ∧ SEvent.mkdir "/tmp/slice-q/output"
        ∈ (sliceModel envNoOrca (fun _ => true) ExecOutcome.okExec [] "upload.stl" {} (some "q")).2
    ∧ hasSpawn (sliceModel envNoOrca (fun _ => true) ExecOutcome.okExec [] "upload.stl" {}
        (some "q")).2 = false := by
  exact ⟨by decide, by decide, by decide⟩

/-- Claim C5 amended: with the engine path unset, `sliceModel` never spawns
a process and, whenever preparation and profile resolution succeed, fails
with the Misconfigured error as a per-request error value; the working
directory and its output subdirectory, however, have already been created
before the check runs. -/
theorem c5_misconfigured (env : SliceEnv) (fsx : String → Bool) (ex : ExecOutcome)
    (outs : List String) (fn : String) (st : SlicingSettings) (q : Option String)
    (hnone : env.orcaslicerPath = none) :
    hasSpawn (sliceModel env fsx ex outs fn st q).2 = false
    ∧ (fsx (inPathFor env fn q) = true → profilesOk env fsx st = true →
        (sliceModel env fsx ex outs fn st q).1
            = SliceRes.err ⟨500, "Slicing is not configured properly on the server",
                some "ORCASLICER_PATH environment variable is not defined"⟩
          ∧ SEvent.mkdir (workdirFor env q ++ "/output")
              ∈ (sliceModel env fsx ex outs fn st q).2) := by
  constructor
  · unfold sliceModel
    cases q with
    | some qq =>
      dsimp only
      by_cases hin : fsx (inPathFor env fn (some qq)) = true
      · rw [if_pos hin, hasSpawn_argsPhase_none env fsx ex outs st _ _ _ _ hnone]
        simp [hasSpawn]
      · rw [if_neg (by simpa using hin)]
        simp [hasSpawn]
    | none =>
      dsimp only
      rw [hasSpawn_argsPhase_none env fsx ex outs st _ _ _ _ hnone]
      simp [hasSpawn]
  · intro hin hprof
    unfold sliceModel
    cases q with
    | some qq =>
      dsimp only
      rw [if_pos hin]
      obtain ⟨h1, h2⟩ := sliceArgsPhase_none_result env fsx ex outs st
        (workdirFor env (some qq)) (workdirFor env (some qq) ++ "/output")
        (inPathFor env fn (some qq)) _ hnone hprof
      exact ⟨h1, h2 _ (by simp)⟩
    | none =>
      dsimp only
      obtain ⟨h1, h2⟩ := sliceArgsPhase_none_result env fsx ex outs st
        (workdirFor env none) (workdirFor env none ++ "/output")
        (inPathFor env fn none) _ hnone hprof
      exact ⟨h1, h2 _ (by simp)⟩

/-- Claim C5 witness: the amended statement applied to a concrete
unconfigured environment. -/
theorem c5_misconfigured_witness :
    hasSpawn (sliceModel envNoOrca (fun _ => true) ExecOutcome.okExec ["m.gcode"] "upload.stl"
        stFull (some "q")).2 = false
    ∧ (sliceModel envNoOrca (fun _ => true) ExecOutcome.okExec ["m.gcode"] "upload.stl"
        stFull (some "q")).1
        = SliceRes.err ⟨500, "Slicing is not configured properly on the server",
            some "ORCASLICER_PATH environment variable is not defined"⟩
    ∧ SEvent.mkdir "/tmp/slice-q/output"
        ∈ (sliceModel envNoOrca (fun _ => true) ExecOutcome.okExec ["m.gcode"] "upload.stl"
            stFull (some "q")).2 := by
  have t := c5_misconfigured envNoOrca (fun _ => true) ExecOutcome.okExec ["m.gcode"]
    "upload.stl" stFull (some "q") (by decide)
  have t2 := t.2 (by decide) (by decide)
  exact ⟨t.1, t2.1, by simpa using t2.2⟩

/-! ## Claim C3: cleanup on mid-pipeline failure -/

/-- Claim C3 counterexample: with the slicer succeeding but producing two
output files, the run fails with the unexpected-output-count error and the
session record is removed, yet the created working directory is neither
removed by the invoker (no rmrf event) nor by the route, contradicting the
removed-if-created clause of the claim. -/
theorem c3_counterexample :
    (routePipeline envA hA "http://b" fxTwoOutputs sessA cA1).resp
        = RouteResponse.errorJson 500 "Expected exactly one output file from slicing" none
    ∧ (routePipeline envA hA "http://b" fxTwoOutputs sessA cA1).sessionDeleted = true
    ∧ SEvent.mkdir "/tmp/slice-a" ∈ (routePipeline envA hA "http://b" fxTwoOutputs sessA cA1).sliceEvents
    ∧ SEvent.rmrf "/tmp/slice-a" ∉ (routePipeline envA hA "http://b" fxTwoOutputs sessA cA1).sliceEvents
    ∧ (routePipeline envA hA "http://b" fxTwoOutputs sessA cA1).workdirRemovedByRoute = false := by
  exact ⟨by decide, by decide, by decide, by decide, by decide⟩

/-- Claim C3 amended: on the enumerated mid-pipeline failures the session
record is always removed before the error is surfaced, but the route
removes the working directory in none of these branches: on invoker
failure the route adds no removal (the invoker itself removes the
directory only in its engine-failure and empty-scan branches), and on the
unexpected-output-count and metadata-parse failures, where a directory was
created, neither the invoker events nor the route remove it; any error
surfaced through the catch block also has the session removed. -/
theorem c3_failure_cleanup (env : SliceEnv) (h : String → String) (base : String) (fx : PipeFx)
    (s : Session) (c : UploadChunk)
    (hw : fx.writeModelThrows = false) (hst : fx.statModelThrows = false)
    (hsec : fx.secretConfigured = true) :
    (∀ e, (sliceModel env fx.fsExists fx.exec fx.outputFiles ("upload." ++ lowerStr c.filetype)
        (s.settings.getD {}) (some c.id)).1 = SliceRes.err e →
      (routePipeline env h base fx s c).resp
          = RouteResponse.errorJson e.status e.message e.causeMessage
        ∧ (routePipeline env h base fx s c).sessionDeleted = true
        ∧ (routePipeline env h base fx s c).workdirRemovedByRoute = false)
    ∧ (∀ gs wd, (sliceModel env fx.fsExists fx.exec fx.outputFiles
        ("upload." ++ lowerStr c.filetype) (s.settings.getD {}) (some c.id)).1
          = SliceRes.ok gs wd → gs.length ≠ 1 →
      (routePipeline env h base fx s c).resp
          = RouteResponse.errorJson 500 "Expected exactly one output file from slicing" none
        ∧ (routePipeline env h base fx s c).sessionDeleted = true
        ∧ (routePipeline env h base fx s c).workdirRemovedByRoute = false)
    ∧ (∀ gs wd m, (sliceModel env fx.fsExists fx.exec fx.outputFiles
        ("upload." ++ lowerStr c.filetype) (s.settings.getD {}) (some c.id)).1
          = SliceRes.ok gs wd → gs.length = 1 → extractSliceData fx.gcodeText = ExtractRes.error m →
      (routePipeline env h base fx s c).resp = RouteResponse.errorJson 500 m none
        ∧ (routePipeline env h base fx s c).sessionDeleted = true
        ∧ (routePipeline env h base fx s c).workdirRemovedByRoute = false)
    ∧ ((routePipeline env h base fx s c).resp
          = RouteResponse.errorJson 500 "Failed to process and slice file" none →
      (routePipeline env h base fx s c).sessionDeleted = true) := by
  refine ⟨?_, ?_, ?_, ?_⟩
  · intro e hsm
    unfold routePipeline
    simp [hw, hst, hsec, hsm]
  · intro gs wd hsm hlen
    unfold routePipeline
    simp [hw, hst, hsec, hsm, hlen]
  · intro gs wd m hsm hlen hext
    unfold routePipeline
    simp [hw, hst, hsec, hsm, hlen, hext]
  · intro hresp
    unfold routePipeline at hresp ⊢
    repeat' (first | split at hresp | dsimp only at hresp ⊢)
    all_goals
      first
      | (exfalso
         exact append_ne_of_not_prefix "Error updating quote: " _
           "Failed to process and slice file" (by decide) (by simpa using hresp))
      | simp_all [catchOut]

/-- Claim C3 witness: the amended statement applied to the concrete
two-output run. -/
theorem c3_failure_cleanup_witness :
    (routePipeline envA hA "http://b" fxTwoOutputs sessA cA1).resp
        = RouteResponse.errorJson 500 "Expected exactly one output file from slicing" none
    ∧ (routePipeline envA hA "http://b" fxTwoOutputs sessA cA1).sessionDeleted = true
    ∧ (routePipeline envA hA "http://b" fxTwoOutputs sessA cA1).workdirRemovedByRoute = false := by
  exact (c3_failure_cleanup envA hA "http://b" fxTwoOutputs sessA cA1 rfl rfl rfl).2.1
    ["/tmp/slice-a/output/m.gcode", "/tmp/slice-a/output/n.gcode"] "/tmp/slice-a"
    (by decide) (by decide)

/-! ## Claim C8: completion criterion and assembly triggering -/

/-- Claim C8 counterexample: after a fully successful two-chunk session
(whose record survives, line 219 being commented out), re-submitting the
already-stored chunk index 1 finds the distinct-count equal to the total
again and triggers the assembly block a second time for the same session:
three submissions produce two triggers. -/
theorem c8_counterexample :
    (runSliceSubmits envA hA "http://b" fxA [] [cA0, cA1, cA1]).triggers = 2 := by
  decide

/-- Claim C8 amended: a submission to the slicing route triggers assembly
exactly when the distinct stored chunk-index count after the insertion
equals the session total, evaluated after each insertion; re-submitting an
already-stored index leaves the distinct count unchanged, so duplicates
never cause premature completion; but because a successful assembly leaves
the session record in place, a duplicate submission against an
already-complete session triggers assembly again, so at-most-once
triggering does not hold per session. -/
theorem c8_completion_criterion (env : SliceEnv) (h : String → String) (base : String)
    (fx : PipeFx) (table : List (String × Session)) (c : UploadChunk) (s : Session)
    (hval : ¬ (c.id = "" ∨ c.currentChunk < 0 ∨ c.totalChunks ≤ 0))
    (hft : lowerStr c.filetype = "stl" ∨ lowerStr c.filetype = "3mf")
    (hfind : jmFind table c.id = some s) :
    ((sliceSubmit env h base fx table c).triggered = true
        ↔ (jmSize (jmSet s.chunks c.currentChunk c.data) : Int) = s.totalChunks)
    ∧ (jmHas s.chunks c.currentChunk = true →
        jmSize (jmSet s.chunks c.currentChunk c.data) = jmSize s.chunks)
    ∧ (jmHas s.chunks c.currentChunk = true → (jmSize s.chunks : Int) = s.totalChunks →
        (sliceSubmit env h base fx table c).triggered = true) := by
  have hhas : jmHas table c.id = true := jmHas_of_find table c.id s hfind
  have hiff : (sliceSubmit env h base fx table c).triggered = true
      ↔ (jmSize (jmSet s.chunks c.currentChunk c.data) : Int) = s.totalChunks := by
    unfold sliceSubmit
    rw [if_neg hval, if_neg (not_not_intro hft)]
    by_cases hsz : (jmSize (jmSet s.chunks c.currentChunk c.data) : Int) = s.totalChunks
    · simp [hhas, hfind, hsz]
    · simp [hhas, hfind, hsz]
  refine ⟨hiff, fun hd => jmSize_jmSet_of_has s.chunks c.currentChunk c.data hd,
    fun hd htot => hiff.mpr ?_⟩
  rw [jmSize_jmSet_of_has s.chunks c.currentChunk c.data hd]
  exact htot

/-- Claim C8 witness: a duplicate submission against a retained complete
session triggers assembly, via the amended criterion. -/
theorem c8_completion_criterion_witness :
    (sliceSubmit envA hA "http://b" fxA [("a", sessA)] cA1).triggered = true := by
  exact (c8_completion_criterion envA hA "http://b" fxA [("a", sessA)] cA1 sessA
    (by decide) (by decide) (by decide)).2.2 (by decide) (by decide)

/-! ## Claim C4: metadata extraction -/

theorem mem_of_head?_eq {α : Type} (l : List α) (a : α) (h : l.head? = some a) : a ∈ l := by
  cases l with
  | nil => cases h
  | cons x t =>
    simp at h
    subst h
    exact List.mem_cons_self _ _

theorem filamentKeyValid (l : String) (f v : String)
    (hp : filamentLineParse l = some (f, v)) :
    f = "used_mm" ∨ f = "used_cm3" ∨ f = "used_g" ∨ f = "cost" := by
  unfold filamentLineParse at hp
  have hmem := mem_of_head?_eq _ _ hp
  obtain ⟨kf, hkf, hg⟩ := List.mem_filterMap.mp hmem
  have hkf2 : kf = ("used [mm]", "used_mm") ∨ kf = ("used [cm3]", "used_cm3")
      ∨ kf = ("used [g]", "used_g") ∨ kf = ("cost", "cost") := by
    simpa [filamentKeys] using hkf
  rcases hkf2 with rfl | rfl | rfl | rfl <;>
    · repeat' split at hg
      all_goals simp_all

theorem getFilament_setFilament (k field v : String) (acc : FilamentInfo)
    (hk : k = "used_mm" ∨ k = "used_cm3" ∨ k = "used_g" ∨ k = "cost") :
    getFilament (setFilament acc k v) field
      = if k = field then some v else getFilament acc field := by
  rcases hk with rfl | rfl | rfl | rfl <;>
    · unfold setFilament getFilament
      by_cases h1 : field = "used_mm" <;> by_cases h2 : field = "used_cm3" <;>
        by_cases h3 : field = "used_g" <;> by_cases h4 : field = "cost" <;>
        simp_all [eq_comm]

theorem lastFilamentValue_cons (field : String) (l : String) (t : List String) :
    lastFilamentValue field (l :: t)
      = match lastFilamentValue field t with
        | some v => some v
        | none =>
          match filamentLineParse l with
          | some (f, v) => if f = field then some v else none
          | none => none := by
  unfold lastFilamentValue
  rw [List.filterMap_cons]
  cases hp : filamentLineParse l with
  | none =>
    simp only [hp]
    cases hl : (t.filterMap (fun l =>
      match filamentLineParse l with
      | some (f, v) => if f = field then some v else none
      | none => none)).getLast? <;> simp_all [lastFilamentValue]
  | some kv =>
    obtain ⟨f, v⟩ := kv
    simp only [hp]
    by_cases hf : f = field
    · rw [if_pos hf]
      rw [getLast?_cons_eq]
      cases hl : (t.filterMap (fun l =>
        match filamentLineParse l with
        | some (f, v) => if f = field then some v else none
        | none => none)).getLast? <;> simp_all [lastFilamentValue, hf]
    · rw [if_neg hf]
      cases hl : (t.filterMap (fun l =>
        match filamentLineParse l with
        | some (f, v) => if f = field then some v else none
        | none => none)).getLast? <;> simp_all [lastFilamentValue, hf]

theorem getFilament_foldl (region : List String) (acc : FilamentInfo) (field : String) :
    getFilament (region.foldl (fun a l =>
      match filamentLineParse l with
      | some (k, v) => setFilament a k v
      | none => a) acc) field
    = match lastFilamentValue field region with
      | some v => some v
      | none => getFilament acc field := by
  induction region generalizing acc with
  | nil => simp [lastFilamentValue]
  | cons l t ih =>
    rw [List.foldl_cons, lastFilamentValue_cons]
    cases hp : filamentLineParse l with
    | none =>
      dsimp only
      rw [ih]
      cases hl : lastFilamentValue field t <;> simp [hl]
    | some kv =>
      obtain ⟨k, v⟩ := kv
      dsimp only
      rw [ih]
      have hk := filamentKeyValid l k v hp
      cases hl : lastFilamentValue field t with
      | some w => simp
      | none =>
        rw [getFilament_setFilament k field v acc hk]
        by_cases hf : k = field <;> simp [hf]

/-- Claim C4 amended: extraction fails with the parse error exactly when no
line of the header region matches the time pattern (a matched line always
has nonempty captured groups, so partial time data indeed never occurs);
on success the returned times are the captures of the first matching
header line, and each filament field carries the value of the last
matching line of the filament-info region, which runs from the
EXECUTABLE_BLOCK_END marker line up to but excluding the final element of
the newline split, so a filament line on an unterminated last line of the
file is ignored, in deviation from the through-end-of-file wording. -/
theorem c4_extract_characterisation (text : String) :
    ((∃ m, extractSliceData text = ExtractRes.error m) ↔
        (headerRegion text).find? (fun l => (timeLineParse l).isSome) = none)
    ∧ (∀ tm tt fil, extractSliceData text = ExtractRes.ok tm tt fil →
        (∃ tl, (headerRegion text).find? (fun l => (timeLineParse l).isSome) = some tl
            ∧ timeLineParse tl = some (tm, tt))
        ∧ fil.used_mm = lastFilamentValue "used_mm" (filamentRegion text)
        ∧ fil.used_cm3 = lastFilamentValue "used_cm3" (filamentRegion text)
        ∧ fil.used_g = lastFilamentValue "used_g" (filamentRegion text)
        ∧ fil.cost = lastFilamentValue "cost" (filamentRegion text)) := by
  cases hfind : (headerRegion text).find? (fun l => (timeLineParse l).isSome) with
  | none =>
    constructor
    · constructor
      · intro _
        rfl
      · intro _
        refine ⟨"Failed to parse slicing times from G-code", ?_⟩
        unfold extractSliceData
        dsimp only
        rw [hfind]
    · intro tm tt fil hok
      unfold extractSliceData at hok
      dsimp only at hok
      rw [hfind] at hok
      cases hok
  | some tl =>
    have hp : (timeLineParse tl).isSome = true := by
      have h2 := List.find?_some hfind
      simpa using h2
    obtain ⟨⟨a, b⟩, hab⟩ : ∃ p, timeLineParse tl = some p := by
      cases hq : timeLineParse tl with
      | none => rw [hq] at hp; cases hp
      | some p => exact ⟨p, rfl⟩
    constructor
    · constructor
      · rintro ⟨m, hm⟩
        unfold extractSliceData at hm
        dsimp only at hm
        rw [hfind] at hm
        dsimp only at hm
        rw [hab] at hm
        dsimp only at hm
        cases hm
      · intro hnone
        cases hnone
    · intro tm tt fil hok
      unfold extractSliceData at hok
      dsimp only at hok
      rw [hfind] at hok
      dsimp only at hok
      rw [hab] at hok
      dsimp only at hok
      have htm : a = tm := by cases hok; rfl
      have htt : b = tt := by cases hok; rfl
      have hfil : fil = (filamentRegion text).foldl (fun acc l =>
          match filamentLineParse l with
          | some (k, v) => setFilament acc k v
          | none => acc) {} := by
        cases hok
        rfl
      refine ⟨⟨tl, rfl, by rw [hab, htm, htt]⟩, ?_, ?_, ?_, ?_⟩
      · have h1 := getFilament_foldl (filamentRegion text) {} "used_mm"
        rw [hfil]
        cases hl : lastFilamentValue "used_mm" (filamentRegion text) <;>
          simp_all [getFilament]
      · have h1 := getFilament_foldl (filamentRegion text) {} "used_cm3"
        rw [hfil]
        cases hl : lastFilamentValue "used_cm3" (filamentRegion text) <;>
          simp_all [getFilament]
      · have h1 := getFilament_foldl (filamentRegion text) {} "used_g"
        rw [hfil]
        cases hl : lastFilamentValue "used_g" (filamentRegion text) <;>
          simp_all [getFilament]
      · have h1 := getFilament_foldl (filamentRegion text) {} "cost"
        rw [hfil]
        cases hl : lastFilamentValue "cost" (filamentRegion text) <;>
          simp_all [getFilament]

/-- Claim C4 counterexample: in a file whose filament cost line is the
final, newline-unterminated line, that line lies in the marker-to-end
region the claim describes and matches the filament pattern, yet
extraction returns an empty filament record, because the code slices the
region up to `fileLines.length - 1`, excluding the last split element. -/
theorem c4_counterexample :
    extractSliceData gtextLastLine = ExtractRes.ok "1m" "2m" {}
    ∧ "; filament cost = 5.00" ∈ specFilamentRegionToEOF gtextLastLine
    ∧ filamentLineParse "; filament cost = 5.00" = some ("cost", "5.00") := by
  exact ⟨by decide, by decide, by decide⟩

/-- Claim C4 witness: the characterisation applied to a well-formed text
with duplicate cost lines, whose last occurrence wins. -/
theorem c4_extract_characterisation_witness :
    extractSliceData gtextFull
        = ExtractRes.ok "1m" "2m"
          { used_mm := some "10.00", used_cm3 := some "2.50", used_g := some "3.10",
            cost := some "2.00" }
    ∧ some "2.00" = lastFilamentValue "cost" (filamentRegion gtextFull) := by
  have hok : extractSliceData gtextFull
      = ExtractRes.ok "1m" "2m"
        { used_mm := some "10.00", used_cm3 := some "2.50", used_g := some "3.10",
          cost := some "2.00" } := by decide
  have t := ((c4_extract_characterisation gtextFull).2 "1m" "2m"
    { used_mm := some "10.00", used_cm3 := some "2.50", used_g := some "3.10",
      cost := some "2.00" } hok).2.2.2.2
  exact ⟨hok, t⟩

/-! ## Claim C9: slicer argument construction -/

theorem sliceModel_as_argsPhase (env : SliceEnv) (fsx : String → Bool) (ex : ExecOutcome)
    (outs : List String) (fn : String) (st : SlicingSettings) (q : Option String)
    (hin : fsx (inPathFor env fn q) = true) :
    ∃ evs0, sliceModel env fsx ex outs fn st q
        = sliceArgsPhase env fsx ex outs st (workdirFor env q) (workdirFor env q ++ "/output")
            (inPathFor env fn q) evs0
      ∧ hasSpawn evs0 = false := by
  cases q with
  | some qq =>
    refine ⟨[SEvent.mkdir (workdirFor env (some qq)),
      SEvent.mkdir (workdirFor env (some qq) ++ "/output"),
      SEvent.access (inPathFor env fn (some qq)),
      SEvent.access (inPathFor env fn (some qq))], ?_, by simp [hasSpawn]⟩
    unfold sliceModel
    dsimp only
    rw [if_pos hin]
    rfl
  | none =>
    refine ⟨[SEvent.mkdir (workdirFor env none),
      SEvent.mkdir (workdirFor env none ++ "/output"),
      SEvent.mkdir (workdirFor env none ++ "/input"),
      SEvent.write (inPathFor env fn none),
      SEvent.access (inPathFor env fn none)], rfl, by simp [hasSpawn]⟩

theorem sliceArgsRest_spawn_mem (env : SliceEnv) (ex : ExecOutcome) (outs : List String)
    (s : SlicingSettings) (wd od ip : String) (args : List String) (evs : List SEvent)
    (exe : String) (hsome : env.orcaslicerPath = some exe) :
    SEvent.spawn exe (args
      ++ (if jsTruthy s.bedType then ["--curr-bed-type", s.bedType.getD ""] else [])
      ++ (if s.multicolorOnePlate = some true then ["--allow-multicolor-oneplate"] else [])
      ++ ["--allow-newer-file", "--outputdir", od, ip])
      ∈ (sliceArgsRest env ex outs s wd od ip args evs).2 := by
  unfold sliceArgsRest sliceExecPhase
  dsimp only
  simp only [hsome]
  cases ex with
  | okExec =>
    repeat' split
    all_goals simp [List.mem_append]
  | fail d => simp [List.mem_append]

theorem sliceArgsTail_spawn_mem (env : SliceEnv) (fsx : String → Bool) (ex : ExecOutcome)
    (outs : List String) (s : SlicingSettings) (wd od ip : String) (args : List String)
    (evs : List SEvent) (exe : String) (hsome : env.orcaslicerPath = some exe)
    (hfil : jsTruthy s.filament = true → fsx (filamentPathOf env s) = true) :
    SEvent.spawn exe (args
      ++ (if jsTruthy s.filament then ["--load-filaments", filamentPathOf env s] else [])
      ++ (if jsTruthy s.bedType then ["--curr-bed-type", s.bedType.getD ""] else [])
      ++ (if s.multicolorOnePlate = some true then ["--allow-multicolor-oneplate"] else [])
      ++ ["--allow-newer-file", "--outputdir", od, ip])
      ∈ (sliceArgsTail env fsx ex outs s wd od ip args evs).2 := by
  unfold sliceArgsTail
  dsimp only
  by_cases hf : jsTruthy s.filament = true
  · rw [if_pos hf, if_pos (hfil hf)]
    have t := sliceArgsRest_spawn_mem env ex outs s wd od ip
      (args ++ ["--load-filaments", filamentPathOf env s])
      (evs ++ [SEvent.access (filamentPathOf env s)]) exe hsome
    simpa [hf] using t
  · rw [if_neg hf]
    have t := sliceArgsRest_spawn_mem env ex outs s wd od ip args evs exe hsome
    simpa [hf] using t

theorem hasSpawn_append_access (evs : List SEvent) (p : String)
    (hev : hasSpawn evs = false) : hasSpawn (evs ++ [SEvent.access p]) = false := by
  simp [hasSpawn, List.any_append] at hev ⊢
  exact hev

theorem sliceArgsPhase_spawn_mem (env : SliceEnv) (fsx : String → Bool) (ex : ExecOutcome)
    (outs : List String) (s : SlicingSettings) (wd od ip : String) (evs : List SEvent)
    (exe : String) (hsome : env.orcaslicerPath = some exe)
    (hprof : profilesOk env fsx s = true) :
    SEvent.spawn exe (specSliceArgs env fsx s od ip)
      ∈ (sliceArgsPhase env fsx ex outs s wd od ip evs).2 := by
  unfold profilesOk at hprof
  rw [Bool.and_eq_true] at hprof
  obtain ⟨hpair, hfilb⟩ := hprof
  have hfil : jsTruthy s.filament = true → fsx (filamentPathOf env s) = true := by
    intro hf
    rw [if_pos hf] at hfilb
    exact hfilb
  unfold sliceArgsPhase
  dsimp only
  by_cases hpp : jsTruthy s.printer = true ∧ jsTruthy s.preset = true
  · rw [if_pos hpp]
    rw [if_pos hpp, Bool.and_eq_true, Bool.or_eq_true] at hpair
    obtain ⟨hpre, hprn⟩ := hpair
    by_cases hup : fsx (uploadedPresetPathOf env s) = true
    · rw [if_pos hup]
      unfold sliceArgsPrinter
      dsimp only
      rw [if_pos hprn]
      have t := sliceArgsTail_spawn_mem env fsx ex outs s wd od ip
        (((if s.exportType = some "3mf" then ["--export-3mf", "result.3mf"] else [])
          ++ ["--slice", match s.plate with | none => "1" | some p => p]
          ++ (match s.arrange with | none => [] | some b => ["--arrange", if b then "1" else "0"])
          ++ (match s.orient with | none => [] | some b => ["--orient", if b then "1" else "0"]))
          ++ ["--load-settings", printerPathOf env s ++ ";" ++ uploadedPresetPathOf env s])
        ((evs ++ [SEvent.access (uploadedPresetPathOf env s)])
          ++ [SEvent.access (printerPathOf env s)]) exe hsome hfil
      simpa [specSliceArgs, hpp, hup] using t
    · have hdef : fsx (defaultPresetPathOf env s) = true := by
        rcases hpre with h1 | h1
        · exact absurd h1 hup
        · exact h1
      rw [if_neg hup]
      rw [if_pos hdef]
      unfold sliceArgsPrinter
      dsimp only
      rw [if_pos hprn]
      have t := sliceArgsTail_spawn_mem env fsx ex outs s wd od ip
        (((if s.exportType = some "3mf" then ["--export-3mf", "result.3mf"] else [])
          ++ ["--slice", match s.plate with | none => "1" | some p => p]
          ++ (match s.arrange with | none => [] | some b => ["--arrange", if b then "1" else "0"])
          ++ (match s.orient with | none => [] | some b => ["--orient", if b then "1" else "0"]))
          ++ ["--load-settings", printerPathOf env s ++ ";" ++ defaultPresetPathOf env s])
        (((evs ++ [SEvent.access (uploadedPresetPathOf env s)])
          ++ [SEvent.access (defaultPresetPathOf env s)])
          ++ [SEvent.access (printerPathOf env s)]) exe hsome hfil
      simpa [specSliceArgs, hpp, hup] using t
  · rw [if_neg hpp]
    have t := sliceArgsTail_spawn_mem env fsx ex outs s wd od ip
      ((if s.exportType = some "3mf" then ["--export-3mf", "result.3mf"] else [])
        ++ ["--slice", match s.plate with | none => "1" | some p => p]
        ++ (match s.arrange with | none => [] | some b => ["--arrange", if b then "1" else "0"])
        ++ (match s.orient with | none => [] | some b => ["--orient", if b then "1" else "0"]))
      evs exe hsome hfil
    simpa [specSliceArgs, hpp] using t

theorem sliceArgsPhase_presetMissing (env : SliceEnv) (fsx : String → Bool) (ex : ExecOutcome)
    (outs : List String) (s : SlicingSettings) (wd od ip : String) (evs : List SEvent)
    (hpr : jsTruthy s.printer = true) (hps : jsTruthy s.preset = true)
    (hu : fsx (uploadedPresetPathOf env s) = false) (hd : fsx (defaultPresetPathOf env s) = false)
    (hev : hasSpawn evs = false) :
    (sliceArgsPhase env fsx ex outs s wd od ip evs).1
        = SliceRes.err ⟨400, "Preset not found",
            some ("Preset " ++ s.preset.getD "" ++ " not found for printer " ++ s.printer.getD "")⟩
    ∧ hasSpawn (sliceArgsPhase env fsx ex outs s wd od ip evs).2 = false := by
  unfold sliceArgsPhase
  dsimp only
  rw [if_pos ⟨hpr, hps⟩, if_neg (by simp [hu]), if_neg (by simp [hd])]
  exact ⟨rfl, hasSpawn_append_access _ _ (hasSpawn_append_access _ _ hev)⟩

theorem sliceArgsPhase_printerMissing (env : SliceEnv) (fsx : String → Bool) (ex : ExecOutcome)
    (outs : List String) (s : SlicingSettings) (wd od ip : String) (evs : List SEvent)
    (hpr : jsTruthy s.printer = true) (hps : jsTruthy s.preset = true)
    (hpre : fsx (uploadedPresetPathOf env s) = true ∨ fsx (defaultPresetPathOf env s) = true)
    (hprn : fsx (printerPathOf env s) = false)
    (hev : hasSpawn evs = false) :
    (sliceArgsPhase env fsx ex outs s wd od ip evs).1
        = SliceRes.err ⟨400, "Printer not found",
            some ("Printer " ++ s.printer.getD "" ++ " not found")⟩
    ∧ hasSpawn (sliceArgsPhase env fsx ex outs s wd od ip evs).2 = false := by
  unfold sliceArgsPhase
  dsimp only
  rw [if_pos ⟨hpr, hps⟩]
  by_cases hup : fsx (uploadedPresetPathOf env s) = true
  · rw [if_pos hup]
    unfold sliceArgsPrinter
    dsimp only
    rw [if_neg (by simp [hprn])]
    exact ⟨rfl, hasSpawn_append_access _ _ (hasSpawn_append_access _ _ hev)⟩
  · have hdef : fsx (defaultPresetPathOf env s) = true := by
      rcases hpre with h1 | h1
      · exact absurd h1 hup
      · exact h1
    rw [if_neg hup]
    rw [if_pos hdef]
    unfold sliceArgsPrinter
    dsimp only
    rw [if_neg (by simp [hprn])]
    exact ⟨rfl, hasSpawn_append_access _ _
      (hasSpawn_append_access _ _ (hasSpawn_append_access _ _ hev))⟩

theorem sliceArgsTail_filamentMissing (env : SliceEnv) (fsx : String → Bool) (ex : ExecOutcome)
    (outs : List String) (s : SlicingSettings) (wd od ip : String) (args : List String)
    (evs : List SEvent)
    (hft : jsTruthy s.filament = true) (hfp : fsx (filamentPathOf env s) = false)
    (hev : hasSpawn evs = false) :
    (sliceArgsTail env fsx ex outs s wd od ip args evs).1
        = SliceRes.err ⟨400, "Filament not found",
            some ("Filament " ++ s.filament.getD "" ++ " not found")⟩
    ∧ hasSpawn (sliceArgsTail env fsx ex outs s wd od ip args evs).2 = false := by
  unfold sliceArgsTail
  dsimp only
  rw [if_pos hft, if_neg (by simp [hfp])]
  exact ⟨rfl, hasSpawn_append_access _ _ hev⟩

theorem sliceArgsPhase_filamentMissing (env : SliceEnv) (fsx : String → Bool) (ex : ExecOutcome)
    (outs : List String) (s : SlicingSettings) (wd od ip : String) (evs : List SEvent)
    (hpair : jsTruthy s.printer = true ∧ jsTruthy s.preset = true →
      (fsx (uploadedPresetPathOf env s) = true ∨ fsx (defaultPresetPathOf env s) = true)
      ∧ fsx (printerPathOf env s) = true)
    (hft : jsTruthy s.filament = true) (hfp : fsx (filamentPathOf env s) = false)
    (hev : hasSpawn evs = false) :
    (sliceArgsPhase env fsx ex outs s wd od ip evs).1
        = SliceRes.err ⟨400, "Filament not found",
            some ("Filament " ++ s.filament.getD "" ++ " not found")⟩
    ∧ hasSpawn (sliceArgsPhase env fsx ex outs s wd od ip evs).2 = false := by
  unfold sliceArgsPhase
  dsimp only
  by_cases hpp : jsTruthy s.printer = true ∧ jsTruthy s.preset = true
  · obtain ⟨hpre, hprn⟩ := hpair hpp
    rw [if_pos hpp]
    by_cases hup : fsx (uploadedPresetPathOf env s) = true
    · rw [if_pos hup]
      unfold sliceArgsPrinter
      dsimp only
      rw [if_pos hprn]
      exact sliceArgsTail_filamentMissing env fsx ex outs s wd od ip _ _ hft hfp
        (hasSpawn_append_access _ _ (hasSpawn_append_access _ _ hev))
    · have hdef : fsx (defaultPresetPathOf env s) = true := by
        rcases hpre with h1 | h1
        · exact absurd h1 hup
        · exact h1
      rw [if_neg hup]
      rw [if_pos hdef]
      unfold sliceArgsPrinter
      dsimp only
      rw [if_pos hprn]
      exact sliceArgsTail_filamentMissing env fsx ex outs s wd od ip _ _ hft hfp
        (hasSpawn_append_access _ _
          (hasSpawn_append_access _ _ (hasSpawn_append_access _ _ hev)))
  · rw [if_neg hpp]
    exact sliceArgsTail_filamentMissing env fsx ex outs s wd od ip _ _ hft hfp hev

/-- Claim C9 amended: under a successful input-file preparation, the
invoker builds exactly the fixed-order argument list of `specSliceArgs`
whenever every demanded profile resolves and the engine path is set (the
spawn event carries it verbatim): export-format flag only for 3mf, plate
selector defaulting to 1, arrange then orient as explicit 0 or 1 flags
omitted when unset, the combined printer and preset pair with the preset
resolved preferentially from the uploaded profile directory and otherwise
from the shared default directory, the filament profile, bed type,
multicolor flag, the allow-newer-file flag, the output directory, and the
input path last; a preset missing from both locations, a printer missing
from the data directory (the only place the code consults for printers),
or a missing filament profile each yield the corresponding 400 NotFound
error before any process is spawned. -/
theorem c9_argument_construction (env : SliceEnv) (fsx : String → Bool) (ex : ExecOutcome)
    (outs : List String) (fn : String) (st : SlicingSettings) (q : Option String) (exe : String)
    (hin : fsx (inPathFor env fn q) = true) :
    (env.orcaslicerPath = some exe → profilesOk env fsx st = true →
      SEvent.spawn exe (specSliceArgs env fsx st (workdirFor env q ++ "/output")
          (inPathFor env fn q))
        ∈ (sliceModel env fsx ex outs fn st q).2)
    ∧ (jsTruthy st.printer = true → jsTruthy st.preset = true →
        fsx (uploadedPresetPathOf env st) = false → fsx (defaultPresetPathOf env st) = false →
        (sliceModel env fsx ex outs fn st q).1 = SliceRes.err ⟨400, "Preset not found",
          some ("Preset " ++ st.preset.getD "" ++ " not found for printer "
            ++ st.printer.getD "")⟩
        ∧ hasSpawn (sliceModel env fsx ex outs fn st q).2 = false)
    ∧ (jsTruthy st.printer = true → jsTruthy st.preset = true →
        (fsx (uploadedPresetPathOf env st) = true ∨ fsx (defaultPresetPathOf env st) = true) →
        fsx (printerPathOf env st) = false →
        (sliceModel env fsx ex outs fn st q).1 = SliceRes.err ⟨400, "Printer not found",
          some ("Printer " ++ st.printer.getD "" ++ " not found")⟩
        ∧ hasSpawn (sliceModel env fsx ex outs fn st q).2 = false)
    ∧ ((jsTruthy st.printer = true ∧ jsTruthy st.preset = true →
          (fsx (uploadedPresetPathOf env st) = true ∨ fsx (defaultPresetPathOf env st) = true)
          ∧ fsx (printerPathOf env st) = true) →
        jsTruthy st.filament = true → fsx (filamentPathOf env st) = false →
        (sliceModel env fsx ex outs fn st q).1 = SliceRes.err ⟨400, "Filament not found",
          some ("Filament " ++ st.filament.getD "" ++ " not found")⟩
        ∧ hasSpawn (sliceModel env fsx ex outs fn st q).2 = false) := by
  obtain ⟨evs0, hsm, hev0⟩ := sliceModel_as_argsPhase env fsx ex outs fn st q hin
  rw [hsm]
  refine ⟨?_, ?_, ?_, ?_⟩
  · intro hsome hprof
    exact sliceArgsPhase_spawn_mem env fsx ex outs st _ _ _ evs0 exe hsome hprof
  · intro hpr hps hu hd
    exact sliceArgsPhase_presetMissing env fsx ex outs st _ _ _ evs0 hpr hps hu hd hev0
  · intro hpr hps hpre hprn
    exact sliceArgsPhase_printerMissing env fsx ex outs st _ _ _ evs0 hpr hps hpre hprn hev0
  · intro hpair hft hfp
    exact sliceArgsPhase_filamentMissing env fsx ex outs st _ _ _ evs0 hpair hft hfp hev0

/-- Claim C9 counterexample: with the printer profile present in the shared
default profiles folder (under either naming convention) but absent from
the data directory, and the preset resolving from the shared folder, the
job fails with the Printer NotFound error: the printer half of the pair is
looked up in the data directory only, not by the claimed two-location
preference order. -/
theorem c9_counterexample :
    (sliceModel envA fsxShared ExecOutcome.okExec [] "upload.stl"
        { printer := some "P", preset := some "Q" } (some "q")).1
      = SliceRes.err ⟨400, "Printer not found", some "Printer P not found"⟩
    ∧ fsxShared "/profiles/P.json" = true
    ∧ fsxShared "/profiles/printers/P.json" = true
    ∧ hasSpawn (sliceModel envA fsxShared ExecOutcome.okExec [] "upload.stl"
        { printer := some "P", preset := some "Q" } (some "q")).2 = false := by
  exact ⟨by decide, by decide, by decide, by decide⟩

/-- Claim C9 witness: the full argument list for settings exercising every
branch, spawned verbatim. -/
theorem c9_argument_construction_witness :
    SEvent.spawn "/bin/orca" ["--export-3mf", "result.3mf", "--slice", "2", "--arrange", "1",
      "--orient", "0", "--load-settings", "/data/printers/P.json;/data/presets/Q.json",
      "--load-filaments", "/data/filaments/F.json", "--curr-bed-type", "textured",
      "--allow-multicolor-oneplate", "--allow-newer-file", "--outputdir",
      "/tmp/slice-q/output", "/up/q-model.stl"]
      ∈ (sliceModel envA (fun _ => true) ExecOutcome.okExec ["m.gcode"] "upload.stl" stFull
          (some "q")).2 := by
  have t := (c9_argument_construction envA (fun _ => true) ExecOutcome.okExec ["m.gcode"]
    "upload.stl" stFull (some "q") "/bin/orca" (by decide)).1 (by decide) (by decide)
  have harg : specSliceArgs envA (fun _ => true) stFull
      (workdirFor envA (some "q") ++ "/output") (inPathFor envA "upload.stl" (some "q"))
      = ["--export-3mf", "result.3mf", "--slice", "2", "--arrange", "1",
        "--orient", "0", "--load-settings", "/data/printers/P.json;/data/presets/Q.json",
        "--load-filaments", "/data/filaments/F.json", "--curr-bed-type", "textured",
        "--allow-multicolor-oneplate", "--allow-newer-file", "--outputdir",
        "/tmp/slice-q/output", "/up/q-model.stl"] := by decide
  rw [harg] at t
  exact t

end Avium
